import Mathlib

/-!
Shallow embedding of the interactive contact-manager CLI (`main.py`) of the
repository, together with a model of the address-book data classes
(`Record`, `AddressBook`, field validators) which the program imports from a
`classes` module that is not part of the sources; those are modelled from the
specification and marked as such. All definitions are executable and mirror
the Python source line by line: Python exceptions become an explicit
exception type, handler results become an explicit value type, and the
read-eval-print step becomes a function from (book, input line) to the list
of printed lines, the next book state, or an uncaught-exception outcome.
-/

/-! ### Python string primitives -/

/-- Tokenizer accumulator for `pySplit`; the second argument holds the
current in-progress token, reversed. -/
def wordsAux : List Char → List Char → List String
  | [], acc => if acc.isEmpty then [] else [String.mk acc.reverse]
  | c :: cs, acc =>
    if c.isWhitespace then
      if acc.isEmpty then wordsAux cs [] else String.mk acc.reverse :: wordsAux cs []
    else wordsAux cs (c :: acc)

/-- Models Python `str.split()` with no argument: split on runs of
whitespace, dropping empty pieces. -/
def pySplit (s : String) : List String := wordsAux s.toList []

/-- Models Python `str.startswith(p)`. -/
def pyStartsWith (s p : String) : Bool := p.toList.isPrefixOf s.toList

/-- Substring occurrence on character lists (models Python `pat in s`). -/
def isInfixB (pat : List Char) : List Char → Bool
  | [] => pat.isEmpty
  | c :: cs => pat.isPrefixOf (c :: cs) || isInfixB pat cs

/-- Models Python `pat in s` for strings. -/
def containsStr (s pat : String) : Bool := isInfixB pat.toList s.toList

/-- Left-to-right non-overlapping replacement, structurally recursive: the
`Nat` argument counts characters still to be skipped after a match (the
matched pattern minus the character already consumed by the step). -/
def replAux (pat sub : List Char) : List Char → Nat → List Char
  | [], _ => []
  | _ :: cs, Nat.succ k => replAux pat sub cs k
  | c :: cs, 0 =>
    if pat.isPrefixOf (c :: cs) && !pat.isEmpty then
      sub ++ replAux pat sub cs (pat.length - 1)
    else
      c :: replAux pat sub cs 0

/-- Models Python `s.replace(pat, sub)` (all occurrences, left to right,
non-overlapping) for a non-empty pattern. -/
def replaceAllStr (s pat sub : String) : String :=
  String.mk (replAux pat.toList sub.toList s.toList 0)

/-- Models Python `str.lower()` (ASCII letters, as used by this program). -/
def pyLower (s : String) : String := String.mk (s.toList.map Char.toLower)

/-- Models Python `str.capitalize()`: first character uppercased, the rest
lowercased (ASCII letters, as used by this program). -/
def pyCapitalize (s : String) : String :=
  match s.toList with
  | [] => ""
  | c :: cs => String.mk (c.toUpper :: cs.map Char.toLower)

/-- Numeric value of a digit list (used by `pyParseInt?`). -/
def digitsVal (cs : List Char) : Nat :=
  cs.foldl (fun a c => a * 10 + (c.toNat - 48)) 0

/-- Models Python `int(s)` for tokens without inner whitespace: an optional
sign followed by at least one decimal digit; `none` models the `ValueError`
raised on any other input. -/
def pyParseInt? (s : String) : Option Int :=
  match s.toList with
  | [] => none
  | '+' :: ds =>
    if !ds.isEmpty && ds.all Char.isDigit then some (digitsVal ds) else none
  | '-' :: ds =>
    if !ds.isEmpty && ds.all Char.isDigit then some (-(digitsVal ds : Int)) else none
  | cs =>
    if cs.all Char.isDigit then some (digitsVal cs) else none

/-- The apostrophe character (written by code point to keep the file plain). -/
def apos : Char := Char.ofNat 39

/-- Models Python `repr` of a short string: quoted with single quotes, or
with double quotes when the text itself contains an apostrophe. -/
def quoteRepr (m : String) : String :=
  if m.toList.contains apos then "\"" ++ m ++ "\"" else
    String.mk (apos :: m.toList) ++ String.mk [apos]

/-- Message text of the `ValueError` raised by Python `int(t)` on a
non-numeric token. -/
def intErrMsg (t : String) : String :=
  "invalid literal for int() with base 10: " ++ quoteRepr t

/-! ### Exceptions and returned values -/

/-- The Python exception classes this program raises or catches. -/
inductive ExcKind where
  | keyError
  | indexError
  | typeError
  | valueError
deriving DecidableEq, Repr

/-- A raised (or returned) Python exception: class plus message. -/
structure PyExc where
  kind : ExcKind
  msg : String
deriving DecidableEq, Repr

/-- The single Python value a (wrapped) handler call evaluates to: a plain
string, an exception object used as a value, or a `(None, x)` pair as built
by the `input_error` wrapper. -/
inductive PyVal where
  | vStr (s : String)
  | vExc (e : PyExc)
  | vPairNoneStr (m : String)
  | vPairNoneExc (e : PyExc)
deriving DecidableEq, Repr

/-- Is the value a `(None, x)` pair (the shape `input_error` builds for
`IndexError` and `TypeError`)? -/
def isPair : PyVal → Bool
  | .vPairNoneStr _ => true
  | .vPairNoneExc _ => true
  | _ => false

/-- Is the value a bare string or a bare exception object (not a pair)? -/
def strOrExc : PyVal → Bool
  | .vStr _ => true
  | .vExc _ => true
  | _ => false

/-- Models Python `str(e)` as used by `print`: `KeyError` renders the repr
of its argument, the other classes render the plain message. -/
def excStr (e : PyExc) : String :=
  match e.kind with
  | .keyError => quoteRepr e.msg
  | _ => e.msg

/-- Printable name of an exception class (used only inside pair reprs). -/
def excClassName : ExcKind → String
  | .keyError => "KeyError"
  | .indexError => "IndexError"
  | .typeError => "TypeError"
  | .valueError => "ValueError"

/-- What `print` shows for a handler's returned value. -/
def pvRender : PyVal → String
  | .vStr s => s
  | .vExc e => excStr e
  | .vPairNoneStr m => "(None, " ++ quoteRepr m ++ ")"
  | .vPairNoneExc e =>
      "(None, " ++ excClassName e.kind ++ "(" ++ quoteRepr e.msg ++ "))"

/-! ### Message constants of `main.py` -/

def NO_RECORD_ERROR_MESSAGE : String :=
  "Sorry, there's no such record, enter another name or check your spelling"

def QUIT_COMMANDS : List String := ["good bye", "close", "exit"]

def WRONG_NUMBER_OF_PARAMETERS_ERROR_MESSAGE : String :=
  "Wrong number of parameters, please check your input"

def EMPTY_MESSAGE : String := "No records in this address book"

def HELLO_MESSAGE : String := "How can I help you?"

def INVALID_COMMAND_ERROR_MESSAGE : String :=
  "Invalid command, please check your input"

def BYE_MESSAGE : String := "Good bye!"

/-! ### Data model (the `classes` module is not among the sources) -/

/-- Modelled from the spec: a `Record` holds a name, an ordered list of
validated phone strings, and at most one birthday given as three integers. -/
structure Record where
  name : String
  phones : List String
  birthday : Option (Int × Int × Int)
deriving DecidableEq, Repr

/-- Modelled from the spec: the accepted phone format is a digit string of
one fixed length; the seed data of `main.py` uses 10-digit phones, so the
fixed length is taken to be 10. -/
def PHONE_LENGTH : Nat := 10

/-- Modelled from the spec: `validate_phone` fails with `InvalidFormat`
(a `ValueError`) when the raw text is not composed of digits of the required
length. -/
def validate_phone (raw : String) : Except PyExc String :=
  if raw.toList.all Char.isDigit && raw.length == PHONE_LENGTH then .ok raw
  else .error ⟨.valueError, "Invalid phone number format"⟩

/-- Modelled from the spec: `Record.add_phone` validates, rejects a value
already present on the record (`DuplicatePhone`), otherwise appends. -/
def Record.add_phone (r : Record) (p : String) : Except PyExc Record :=
  match validate_phone p with
  | .error e => .error e
  | .ok v =>
    if r.phones.contains v then .error ⟨.valueError, "Phone already exists"⟩
    else .ok { r with phones := r.phones ++ [v] }

/-- Replace the first occurrence of `old` by `new`, preserving position. -/
def replaceFirst : List String → String → String → List String
  | [], _, _ => []
  | p :: ps, old, new =>
    if p = old then new :: ps else p :: replaceFirst ps old new

/-- Modelled from the spec: `Record.edit_phone` finds an existing phone
equal to `old` (else `PhoneNotFound`), validates `new`, and replaces the old
value in place, preserving its position. -/
def Record.edit_phone (r : Record) (old new : String) : Except PyExc Record :=
  if r.phones.contains old then
    match validate_phone new with
    | .error e => .error e
    | .ok v => .ok { r with phones := replaceFirst r.phones old v }
  else .error ⟨.valueError, "Phone not found"⟩

/-- Is `y-m-d` a real calendar date (proleptic Gregorian, year 1..9999)? -/
def isValidDate (y m d : Int) : Bool :=
  let leap := y % 4 == 0 && (y % 100 != 0 || y % 400 == 0)
  let mdays : Int :=
    if m == 2 then (if leap then 29 else 28)
    else if m == 4 || m == 6 || m == 9 || m == 11 then 30
    else 31
  1 ≤ y && y ≤ 9999 && 1 ≤ m && m ≤ 12 && 1 ≤ d && d ≤ mdays

/-- Modelled from the spec: assigning `record.birthday.value` validates the
supplied integer tuple and fails with `InvalidDate` (a `ValueError`) unless
it is a three-integer real calendar date; on success it overwrites any
existing birthday. -/
def Record.set_birthday (r : Record) (zs : List Int) : Except PyExc Record :=
  match zs with
  | [y, m, d] =>
    if isValidDate y m d then .ok { r with birthday := some (y, m, d) }
    else .error ⟨.valueError, "Invalid date"⟩
  | _ => .error ⟨.valueError, "Invalid date"⟩

/-- Modelled from the spec: rendering of one record for `show all` — name,
semicolon-joined phone list, and the birthday when present. -/
def recordStr (r : Record) : String :=
  let base := r.name ++ ": " ++ String.intercalate "; " r.phones
  match r.birthday with
  | none => base
  | some (y, m, d) =>
      base ++ ", birthday: " ++ toString y ++ "-" ++ toString m ++ "-" ++ toString d

/-- Modelled from the spec: the address book is a name-keyed collection of
records whose iteration order is insertion order. -/
structure AddressBook where
  records : List Record
deriving DecidableEq, Repr

/-- Modelled from the spec: `find` is exact-key lookup with quiet absence. -/
def AddressBook.find (b : AddressBook) (n : String) : Option Record :=
  b.records.find? (fun r => r.name == n)

/-- Modelled from the spec: `add_record` inserts at the end of the iteration
order and fails with `DuplicateName` (a `KeyError`) if the name exists. -/
def AddressBook.add_record (b : AddressBook) (r : Record) : Except PyExc AddressBook :=
  if b.records.any (fun x => x.name == r.name) then
    .error ⟨.keyError, "Record already exists"⟩
  else .ok ⟨b.records ++ [r]⟩

/-- Modelled from the spec: `book[name] = record` replaces the record stored
under an existing key, keeping its position in the iteration order. -/
def AddressBook.setRecord (b : AddressBook) (n : String) (r : Record) : AddressBook :=
  ⟨b.records.map (fun x => if x.name == n then r else x)⟩

/-! ### The `input_error` decorator (`main.py`, lines 14-39) -/

/-- The value `input_error`'s `wrapper` returns for each caught exception
class: `KeyError` and `ValueError` are returned as the exception object
itself, `IndexError` becomes the pair `(None, wrong-parameters message)`,
and `TypeError e` becomes the pair `(None, e)`. -/
def input_error (e : PyExc) : PyVal :=
  match e.kind with
  | .keyError => .vExc e
  | .indexError => .vPairNoneStr WRONG_NUMBER_OF_PARAMETERS_ERROR_MESSAGE
  | .typeError => .vPairNoneExc e
  | .valueError => .vExc e

/-- Applying the decorator to a handler call on book `b`: a normal return
passes through, a raised exception is converted by `input_error` with the
book left as it was at the raise point. -/
def pywrap (b : AddressBook) (r : Except PyExc (PyVal × AddressBook)) : PyVal × AddressBook :=
  match r with
  | .ok v => v
  | .error e => (input_error e, b)

/-! ### Command handlers (`main.py`, lines 42-189) -/

def hello : PyVal := .vStr HELLO_MESSAGE

/-- Message raised by `add_contact` for an existing name. -/
def dupNameMsg (n : String) : String :=
  n ++ " already is in contacts. If you want to make changes to the record, use 'change [name] [phone]' command instead"

/-- Body of `add_contact` (before the `input_error` decorator). -/
def add_contact_body (n p : String) (b : AddressBook) : Except PyExc (PyVal × AddressBook) :=
  match AddressBook.find b n with
  | some _ => .error ⟨.keyError, dupNameMsg n⟩
  | none =>
    match Record.add_phone ⟨n, [], none⟩ p with
    | .error e => .error e
    | .ok r =>
      match AddressBook.add_record b r with
      | .error e => .error e
      | .ok b2 => .ok (.vStr (n ++ "'s phone has been added to contacts"), b2)

/-- `add_contact` as decorated with `input_error`. -/
def add_contact (n p : String) (b : AddressBook) : PyVal × AddressBook :=
  pywrap b (add_contact_body n p b)

/-- Body of `change_contact` (before the `input_error` decorator). -/
def change_contact_body (n po pn : String) (b : AddressBook) : Except PyExc (PyVal × AddressBook) :=
  match AddressBook.find b n with
  | some r =>
    match Record.edit_phone r po pn with
    | .error e => .error e
    | .ok r2 =>
        .ok (.vStr (n ++ "'s phone has been changed in contacts"), AddressBook.setRecord b n r2)
  | none => .error ⟨.keyError, NO_RECORD_ERROR_MESSAGE⟩

/-- `change_contact` as decorated with `input_error`. -/
def change_contact (n po pn : String) (b : AddressBook) : PyVal × AddressBook :=
  pywrap b (change_contact_body n po pn b)

/-- Body of `add_phone` (before the `input_error` decorator); note the
internal `try/except ValueError` that returns the exception as a value. -/
def add_phone_body (n p : String) (b : AddressBook) : Except PyExc (PyVal × AddressBook) :=
  match AddressBook.find b n with
  | none => .error ⟨.keyError, NO_RECORD_ERROR_MESSAGE⟩
  | some r =>
    match Record.add_phone r p with
    | .error e => .ok (.vExc e, b)
    | .ok r2 =>
        .ok (.vStr (n ++ "'s phone has been added to contacts"), AddressBook.setRecord b n r2)

/-- `add_phone` as decorated with `input_error`. -/
def add_phone (n p : String) (b : AddressBook) : PyVal × AddressBook :=
  pywrap b (add_phone_body n p b)

/-- Body of `get_phone`: on an unknown name it RETURNS (not raises) a
`TypeError` carrying the not-found message. -/
def get_phone_body (n : String) (b : AddressBook) : Except PyExc (PyVal × AddressBook) :=
  match AddressBook.find b n with
  | none => .ok (.vExc ⟨.typeError, NO_RECORD_ERROR_MESSAGE⟩, b)
  | some r =>
      .ok (.vStr (n ++ "'s phone(s): " ++ String.intercalate "; " r.phones), b)

/-- `get_phone` as decorated with `input_error`. -/
def get_phone (n : String) (b : AddressBook) : PyVal × AddressBook :=
  pywrap b (get_phone_body n b)

/-- `add_birthday` — NOT decorated with `input_error` in the source; its
`KeyError` for an unknown name propagates to the caller. The internal
`try/except ValueError` returns the validation error as a value. -/
def add_birthday (n : String) (zs : List Int) (b : AddressBook) : Except PyExc (PyVal × AddressBook) :=
  match AddressBook.find b n with
  | none => .error ⟨.keyError, NO_RECORD_ERROR_MESSAGE⟩
  | some r =>
    match Record.set_birthday r zs with
    | .error e => .ok (.vExc e, b)
    | .ok r2 =>
        .ok (.vStr (n ++ "'s birthday has been added to contacts"), AddressBook.setRecord b n r2)

/-- Rendering of a list of records as `show_all_contacts` builds it. -/
def renderAll (rs : List Record) : String :=
  let view := rs.foldl (fun acc r => acc ++ recordStr r ++ "\n") ""
  if view.isEmpty then EMPTY_MESSAGE else view

/-- `show_all_contacts` — not decorated. `num` is the value the parser
passed: `none` models the empty list `[]` used when no third token was
given, `some n` a parsed integer. The truncating branch is taken only when
the argument is truthy (`islice` is applied only then), and `islice` raises
`ValueError` for a negative bound. -/
def show_all_contacts (num : Option Int) (b : AddressBook) : Except PyExc String :=
  let truthy := match num with
    | none => false
    | some n => n != 0
  if truthy then
    match num with
    | some n =>
      if n < 0 then
        .error ⟨.valueError, "Indices for islice() must be None or an integer: 0 <= x <= sys.maxsize."⟩
      else .ok (renderAll (b.records.take n.toNat))
    | none => .ok (renderAll b.records)
  else .ok (renderAll b.records)

/-! ### The command parser (`main.py`, lines 192-269) -/

/-- The `(handler, *args)` tuple `parse_command` returns on success. -/
inductive ParsedCmd where
  | helloCmd
  | showAll (num : Option Int)
  | getPhone (name : String)
  | addPhone (name phone : String)
  | addBirthday (name : String) (zs : List Int)
  | addContact (name phone : String)
  | change (name old new : String)
deriving DecidableEq, Repr

/-- `parse_complex_data`: split, take `data[1].capitalize()` and `data[2]`;
an out-of-range index raises `IndexError`. -/
def parse_complex_data (u : String) : Except PyExc (String × String) :=
  match pySplit u with
  | _ :: n :: p :: _ => .ok (pyCapitalize n, p)
  | _ => .error ⟨.indexError, "list index out of range"⟩

/-- Sequential `int` conversion of the tokens after the name, as done by
`tuple(map(int, data[2:]))`: the first non-numeric token raises
`ValueError`. -/
def intsOfTokensE : List String → Except PyExc (List Int)
  | [] => .ok []
  | t :: ts =>
    match pyParseInt? t with
    | none => .error ⟨.valueError, intErrMsg t⟩
    | some z =>
      match intsOfTokensE ts with
      | .error e => .error e
      | .ok zs => .ok (z :: zs)

/-- `parse_birthday`: `data[1].capitalize()` (raising `IndexError` when
missing) and the integer conversion of all remaining tokens; no check that
exactly three remain. -/
def parse_birthday (u : String) : Except PyExc (String × List Int) :=
  match pySplit u with
  | _ :: n :: ts =>
    match intsOfTokensE ts with
    | .error e => .error e
    | .ok zs => .ok (pyCapitalize n, zs)
  | _ => .error ⟨.indexError, "list index out of range"⟩

/-- The `show all` branch of `parse_command`. -/
def showAllBranch (u : String) : Except PyExc ParsedCmd :=
  let d := pySplit u
  if d.length == 3 then
    match pyParseInt? d[2]! with
    | some n => .ok (.showAll (some n))
    | none => .error ⟨.valueError, intErrMsg d[2]!⟩
  else .ok (.showAll none)

/-- The `phone` branch of `parse_command`. -/
def phoneBranch (u : String) : Except PyExc ParsedCmd :=
  match pySplit u with
  | _ :: t :: _ => .ok (.getPhone (pyCapitalize t))
  | _ => .error ⟨.indexError, "list index out of range"⟩

/-- The `add` branch of `parse_command`: substring dispatch on `phone` /
`birthday` occurring anywhere in the line, with the keyword pair collapsed
by `str.replace` before re-splitting. -/
def addBranch (u : String) : Except PyExc ParsedCmd :=
  if containsStr u "phone" then
    match parse_complex_data (replaceAllStr u "add phone" "add") with
    | .error e => .error e
    | .ok (n, p) => .ok (.addPhone n p)
  else if containsStr u "birthday" then
    match parse_birthday (replaceAllStr u "add birthday" "add") with
    | .error e => .error e
    | .ok (n, zs) => .ok (.addBirthday n zs)
  else
    match parse_complex_data u with
    | .error e => .error e
    | .ok (n, p) => .ok (.addContact n p)

/-- The `change` branch of `parse_command`; on a successful parse the source
also executes a leftover `print(name, phone_old, phone_new)`, returned here
as the list of lines printed during parsing. -/
def changeBranch (u : String) : List String × Except PyExc ParsedCmd :=
  match pySplit u with
  | _ :: n :: po :: pn :: _ =>
    ([pyCapitalize n ++ " " ++ po ++ " " ++ pn],
      .ok (.change (pyCapitalize n) po pn))
  | _ => ([], .error ⟨.indexError, "list index out of range"⟩)

/-- `parse_command` before its `input_error` decorator: the branch chain of
lines 206-238, paired with the lines printed during parsing. -/
def parse_command_body (u : String) : List String × Except PyExc ParsedCmd :=
  if pyStartsWith u "hello" then ([], .ok .helloCmd)
  else if pyStartsWith u "show all" then ([], showAllBranch u)
  else if pyStartsWith u "phone" then ([], phoneBranch u)
  else if pyStartsWith u "add" then ([], addBranch u)
  else if pyStartsWith u "change" then changeBranch u
  else ([], .error ⟨.typeError, INVALID_COMMAND_ERROR_MESSAGE⟩)

/-- What the decorated `parse_command` evaluates to, as seen by `main`'s
`run, *args = parse_command(...)`: a command tuple, a returned bare
exception object (`KeyError`/`ValueError` caught), or a `(None, x)` pair
(`IndexError`/`TypeError` caught). -/
inductive ParseRet where
  | cmd (c : ParsedCmd)
  | excVal (e : PyExc)
  | pairNoneStr (m : String)
  | pairNoneExc (e : PyExc)
deriving DecidableEq, Repr

/-- The decorated `parse_command`. -/
def parse_command (u : String) : List String × ParseRet :=
  match parse_command_body u with
  | (ls, .ok c) => (ls, .cmd c)
  | (ls, .error e) =>
    (ls, match e.kind with
      | .indexError => .pairNoneStr WRONG_NUMBER_OF_PARAMETERS_ERROR_MESSAGE
      | .typeError => .pairNoneExc e
      | _ => .excVal e)

/-! ### The read-eval-print step (`main.py`, lines 272-282) -/

/-- Dispatch of a parsed command tuple to its handler. A `.error` result is
an exception the handler let escape (only possible for the undecorated
`add_birthday` and `show_all_contacts`). -/
def runHandler (c : ParsedCmd) (b : AddressBook) : Except PyExc (PyVal × AddressBook) :=
  match c with
  | .helloCmd => .ok (hello, b)
  | .showAll num =>
    match show_all_contacts num b with
    | .error e => .error e
    | .ok s => .ok (.vStr s, b)
  | .getPhone n => .ok (get_phone n b)
  | .addPhone n p => .ok (add_phone n p b)
  | .addBirthday n zs => add_birthday n zs b
  | .addContact n p => .ok (add_contact n p b)
  | .change n po pn => .ok (change_contact n po pn b)

/-- Outcome of one iteration of `main`'s loop on one input line. -/
inductive StepResult where
  | printed (lines : List String) (b : AddressBook)
  | crashed (k : ExcKind)
  | quitLoop (lines : List String)
deriving DecidableEq, Repr

/-- One iteration of `main`'s `while True` body: quit-command check on the
raw line, then `run, *args = parse_command(line.lower())`. Unpacking a bare
returned exception object raises an uncaught `TypeError` (exceptions are not
iterable), and an exception escaping an undecorated handler is likewise
uncaught; both kill the loop (`crashed`). Otherwise the debug lines printed
during parsing plus exactly one result line are printed. -/
def processLine (b : AddressBook) (line : String) : StepResult :=
  if QUIT_COMMANDS.contains line then .quitLoop [BYE_MESSAGE]
  else
    let pr := parse_command (pyLower line)
    match pr.2 with
    | .cmd c =>
      match runHandler c b with
      | .ok (v, b2) => .printed (pr.1 ++ [pvRender v]) b2
      | .error e => .crashed e.kind
    | .pairNoneStr m => .printed (pr.1 ++ [m]) b
    | .pairNoneExc e => .printed (pr.1 ++ [excStr e]) b
    | .excVal _ => .crashed .typeError

/-! ### The seed data of `main.py` (lines 285-292) -/

def jimRecord : Record := ⟨"Jim", ["3456343651"], some (2000, 9, 27)⟩

def bobRecord : Record := ⟨"Bob", [], some (2000, 5, 27)⟩

/-- The seed book: Jim (one phone, birthday) then Bob (no phone, birthday). -/
def seedBook : AddressBook := ⟨[jimRecord, bobRecord]⟩

/-- The record state after `change jim 3456343651 1112223334` on the seed
book: the old phone value replaced in place. -/
def jimChanged : Record := ⟨"Jim", ["1112223334"], some (2000, 9, 27)⟩

/-! ### Helper lemmas: characters and case mapping -/

theorem toNat_ofNat_valid {n : Nat} (h : n.isValidChar) : (Char.ofNat n).toNat = n := by
  rw [Char.ofNat, dif_pos h]
  rfl

theorem toLower_eq (c : Char) :
    c.toLower = if c.toNat ≥ 65 ∧ c.toNat ≤ 90 then Char.ofNat (c.toNat + 32) else c := rfl

theorem toUpper_eq (c : Char) :
    c.toUpper = if c.toNat ≥ 97 ∧ c.toNat ≤ 122 then Char.ofNat (c.toNat - 32) else c := rfl

theorem upper_toLower (c : Char) : c.toLower.toUpper = c.toUpper := by
  by_cases h : c.toNat ≥ 65 ∧ c.toNat ≤ 90
  · have h1 : c.toLower = Char.ofNat (c.toNat + 32) := by rw [toLower_eq, if_pos h]
    have hv : (c.toNat + 32).isValidChar := Or.inl (by omega)
    have h2 : c.toLower.toNat = c.toNat + 32 := by rw [h1, toNat_ofNat_valid hv]
    rw [toUpper_eq c.toLower, h2, if_pos (by omega), toUpper_eq c, if_neg (by omega)]
    have h3 : c.toNat + 32 - 32 = c.toNat := by omega
    rw [h3, Char.ofNat_toNat]
  · have h1 : c.toLower = c := by rw [toLower_eq, if_neg h]
    rw [h1]

theorem upper_toUpper (c : Char) : c.toUpper.toUpper = c.toUpper := by
  by_cases h : c.toNat ≥ 97 ∧ c.toNat ≤ 122
  · have h1 : c.toUpper = Char.ofNat (c.toNat - 32) := by rw [toUpper_eq, if_pos h]
    have hv : (c.toNat - 32).isValidChar := Or.inl (by omega)
    have h2 : c.toUpper.toNat = c.toNat - 32 := by rw [h1, toNat_ofNat_valid hv]
    rw [toUpper_eq c.toUpper, h2, if_neg (by omega)]
  · have h1 : c.toUpper = c := by rw [toUpper_eq, if_neg h]
    rw [h1]
    exact h1

theorem lower_toLower (c : Char) : c.toLower.toLower = c.toLower := by
  by_cases h : c.toNat ≥ 65 ∧ c.toNat ≤ 90
  · have h1 : c.toLower = Char.ofNat (c.toNat + 32) := by rw [toLower_eq, if_pos h]
    have hv : (c.toNat + 32).isValidChar := Or.inl (by omega)
    have h2 : c.toLower.toNat = c.toNat + 32 := by rw [h1, toNat_ofNat_valid hv]
    rw [toLower_eq c.toLower, h2, if_neg (by omega)]
  · have h1 : c.toLower = c := by rw [toLower_eq, if_neg h]
    rw [h1]
    exact h1

theorem map_lower_lower (cs : List Char) :
    (cs.map Char.toLower).map Char.toLower = cs.map Char.toLower := by
  induction cs with
  | nil => rfl
  | cons c cs ih => simp [List.map, ih, lower_toLower]

/-- Python `capitalize` depends only on the case-folded text: any string
with the same lowercase image capitalizes to the same result. -/
theorem cap_eq_of_lower_eq (m t : String)
    (h : pyLower m = pyLower (pyCapitalize t)) : pyCapitalize m = pyCapitalize t := by
  rcases m with ⟨md⟩
  rcases t with ⟨td⟩
  cases td with
  | nil =>
    have h2 : md.map Char.toLower = [] := by
      simpa [pyLower, pyCapitalize, String.ext_iff] using h
    have h3 : md = [] := by
      cases md with
      | nil => rfl
      | cons a l => simp at h2
    simp [pyCapitalize, h3]
  | cons c cs =>
    have h2 : md.map Char.toLower
        = (c.toUpper).toLower :: (cs.map Char.toLower).map Char.toLower := by
      simpa [pyLower, pyCapitalize, String.ext_iff, List.map_map, Function.comp] using h
    rw [map_lower_lower] at h2
    cases md with
    | nil => simp at h2
    | cons m0 ms =>
      simp only [List.map, List.cons.injEq] at h2
      obtain ⟨hh, ht⟩ := h2
      have hu : m0.toUpper = c.toUpper := by
        calc m0.toUpper = m0.toLower.toUpper := (upper_toLower m0).symm
          _ = (c.toUpper).toLower.toUpper := by rw [hh]
          _ = (c.toUpper).toUpper := upper_toLower c.toUpper
          _ = c.toUpper := upper_toUpper c
      simp [pyCapitalize, String.ext_iff, hu, ht]

/-- A capitalized name is a fixed point of `pyCapitalize`. -/
theorem cap_of_cap (t : String) : pyCapitalize (pyCapitalize t) = pyCapitalize t :=
  cap_eq_of_lower_eq (pyCapitalize t) t rfl

/-! ### Helper lemmas: prefixes and the branch chain -/

theorem starts_shape {u p : String} (h : pyStartsWith u p = true) :
    ∃ t, u.toList = p.toList ++ t := by
  unfold pyStartsWith at h
  rw [List.isPrefixOf_iff_prefix] at h
  obtain ⟨t, ht⟩ := h
  exact ⟨t, ht.symm⟩

/-! ### Helper lemmas: which exception classes each operation can raise -/

theorem validate_phone_kind {p : String} {e : PyExc}
    (h : validate_phone p = .error e) : e.kind = .valueError := by
  unfold validate_phone at h
  split at h
  · simp at h
  · injection h with h2
    subst h2
    rfl

theorem record_add_phone_kind {r : Record} {p : String} {e : PyExc}
    (h : Record.add_phone r p = .error e) : e.kind = .valueError := by
  unfold Record.add_phone at h
  split at h
  · rename_i e2 heq
    injection h with h2
    subst h2
    exact validate_phone_kind heq
  · split at h
    · injection h with h2
      subst h2
      rfl
    · simp at h

theorem record_edit_phone_kind {r : Record} {po pn : String} {e : PyExc}
    (h : Record.edit_phone r po pn = .error e) : e.kind = .valueError := by
  unfold Record.edit_phone at h
  split at h
  · split at h
    · rename_i e2 heq
      injection h with h2
      subst h2
      exact validate_phone_kind heq
    · simp at h
  · injection h with h2
    subst h2
    rfl

theorem add_record_kind {b : AddressBook} {r : Record} {e : PyExc}
    (h : AddressBook.add_record b r = .error e) : e.kind = .keyError := by
  unfold AddressBook.add_record at h
  split at h
  · injection h with h2
    subst h2
    rfl
  · simp at h

theorem intsOfTokensE_kind {ts : List String} {e : PyExc}
    (h : intsOfTokensE ts = .error e) : e.kind = .valueError := by
  induction ts with
  | nil => simp [intsOfTokensE] at h
  | cons t ts ih =>
    unfold intsOfTokensE at h
    split at h
    · injection h with h2
      subst h2
      rfl
    · split at h
      · rename_i e2 heq
        injection h with h2
        subst h2
        exact ih heq
      · simp at h

theorem input_error_strOrExc {e : PyExc}
    (h : e.kind = .keyError ∨ e.kind = .valueError) :
    strOrExc (input_error e) = true := by
  rcases e with ⟨k, m⟩
  rcases h with h | h <;> simp only at h <;> subst h <;> rfl

/-- The name argument a parsed command carries, when it has one. -/
def nameOf : ParsedCmd → Option String
  | .helloCmd => none
  | .showAll _ => none
  | .getPhone n => some n
  | .addPhone n _ => some n
  | .addBirthday n _ => some n
  | .addContact n _ => some n
  | .change n _ _ => some n

/-! ### Claim theorems -/

/-- C1, counterexample: `add_contact` on a duplicate name raises `KeyError`,
and the `input_error` wrapper returns the exception object itself — not a
`(success=false, message)` pair — so the claimed uniform pair shape is false
for this handler and failure. -/
theorem C1_cex :
    (add_contact "Jim" "0123456789" seedBook).1 = .vExc ⟨.keyError, dupNameMsg "Jim"⟩ ∧
    isPair (add_contact "Jim" "0123456789" seedBook).1 = false :=
  ⟨rfl, rfl⟩

/-- C1 (amended): every decorated command handler returns a single value
instead of propagating its structured failure — the success message as a
bare string, and every failure as a returned exception object (`KeyError`
or `ValueError` from raises, plus the `TypeError` value `get_phone` returns
directly); only `IndexError`/`TypeError` raises would be converted by
`input_error` into `(None, message)` pairs, and the command handlers never
produce those. The dispatch loop can therefore print exactly one value per
handler call without inspecting the failure kind. -/
theorem C1_thm (n p po pn g m : String) (b : AddressBook) :
    strOrExc (add_contact n p b).1 = true ∧
    strOrExc (change_contact n po pn b).1 = true ∧
    strOrExc (add_phone n p b).1 = true ∧
    strOrExc (get_phone g b).1 = true ∧
    isPair (input_error ⟨.indexError, m⟩) = true ∧
    isPair (input_error ⟨.typeError, m⟩) = true := by
  refine ⟨?_, ?_, ?_, ?_, rfl, rfl⟩
  · unfold add_contact
    cases hf : AddressBook.find b n with
    | some r =>
      have hb : add_contact_body n p b = .error ⟨.keyError, dupNameMsg n⟩ := by
        unfold add_contact_body
        rw [hf]
      rw [hb]
      rfl
    | none =>
      cases hap : Record.add_phone ⟨n, [], none⟩ p with
      | error e =>
        have hb : add_contact_body n p b = .error e := by
          unfold add_contact_body
          rw [hf, hap]
        rw [hb]
        exact input_error_strOrExc (Or.inr (record_add_phone_kind hap))
      | ok r2 =>
        have hb : add_contact_body n p b
            = match AddressBook.add_record b r2 with
              | .error e => .error e
              | .ok b2 => .ok (.vStr (n ++ "'s phone has been added to contacts"), b2) := by
          unfold add_contact_body
          rw [hf, hap]
        cases har : AddressBook.add_record b r2 with
        | error e =>
          rw [har] at hb
          rw [hb]
          exact input_error_strOrExc (Or.inl (add_record_kind har))
        | ok b2 =>
          rw [har] at hb
          rw [hb]
          rfl
  · unfold change_contact
    cases hf : AddressBook.find b n with
    | none =>
      have hb : change_contact_body n po pn b = .error ⟨.keyError, NO_RECORD_ERROR_MESSAGE⟩ := by
        unfold change_contact_body
        rw [hf]
      rw [hb]
      rfl
    | some r =>
      cases hep : Record.edit_phone r po pn with
      | error e =>
        have hb : change_contact_body n po pn b
            = match Record.edit_phone r po pn with
              | .error e => .error e
              | .ok r2 => .ok (.vStr (n ++ "'s phone has been changed in contacts"),
                  AddressBook.setRecord b n r2) := by
          unfold change_contact_body
          rw [hf]
        rw [hep] at hb
        rw [hb]
        exact input_error_strOrExc (Or.inr (record_edit_phone_kind hep))
      | ok r2 =>
        have hb : change_contact_body n po pn b
            = match Record.edit_phone r po pn with
              | .error e => .error e
              | .ok r2 => .ok (.vStr (n ++ "'s phone has been changed in contacts"),
                  AddressBook.setRecord b n r2) := by
          unfold change_contact_body
          rw [hf]
        rw [hep] at hb
        rw [hb]
        rfl
  · unfold add_phone
    cases hf : AddressBook.find b n with
    | none =>
      have hb : add_phone_body n p b = .error ⟨.keyError, NO_RECORD_ERROR_MESSAGE⟩ := by
        unfold add_phone_body
        rw [hf]
      rw [hb]
      rfl
    | some r =>
      cases hap : Record.add_phone r p with
      | error e =>
        have hb : add_phone_body n p b
            = match Record.add_phone r p with
              | .error e => .ok (.vExc e, b)
              | .ok r2 => .ok (.vStr (n ++ "'s phone has been added to contacts"),
                  AddressBook.setRecord b n r2) := by
          unfold add_phone_body
          rw [hf]
        rw [hap] at hb
        rw [hb]
        rfl
      | ok r2 =>
        have hb : add_phone_body n p b
            = match Record.add_phone r p with
              | .error e => .ok (.vExc e, b)
              | .ok r2 => .ok (.vStr (n ++ "'s phone has been added to contacts"),
                  AddressBook.setRecord b n r2) := by
          unfold add_phone_body
          rw [hf]
        rw [hap] at hb
        rw [hb]
        rfl
  · unfold get_phone
    cases hf : AddressBook.find b g with
    | none =>
      have hb : get_phone_body g b = .ok (.vExc ⟨.typeError, NO_RECORD_ERROR_MESSAGE⟩, b) := by
        unfold get_phone_body
        rw [hf]
      rw [hb]
      rfl
    | some r =>
      have hb : get_phone_body g b
          = .ok (.vStr (g ++ "'s phone(s): " ++ String.intercalate "; " r.phones), b) := by
        unfold get_phone_body
        rw [hf]
      rw [hb]
      rfl

/-- C2, failing input: on `show all x` the decorated parser catches the
`ValueError` from `int("x")` and returns the bare exception object; `main`'s
`run, *args = ...` unpacking of a non-iterable exception then raises an
uncaught `TypeError`, killing the loop instead of printing a message. -/
theorem C2_thm (b : AddressBook) : processLine b "show all x" = .crashed .typeError := rfl

/-- C9, failing input: a well-formed `change` command prints TWO lines in
one loop iteration — the leftover debug `print(name, phone_old, phone_new)`
inside `parse_command` plus the handler's result message. -/
theorem C9_thm :
    processLine seedBook "change jim 3456343651 1112223334" =
      .printed ["Jim 3456343651 1112223334", "Jim's phone has been changed in contacts"]
        ⟨[jimChanged, bobRecord]⟩ := rfl

/-- C10: a limit of 0 is falsy, so the truncating branch is skipped and
`show_all_contacts 0` renders every contact, exactly like the no-limit
call. -/
theorem C10_thm (b : AddressBook) :
    show_all_contacts (some 0) b = .ok (renderAll b.records) ∧
    show_all_contacts (some 0) b = show_all_contacts none b :=
  ⟨rfl, rfl⟩

/-- C3, counterexample: on the seed book, `show all 0` renders ALL records
— not the first 0 records, whose rendering is the distinct no-records
message. -/
theorem C3_cex :
    show_all_contacts (some 0) seedBook = .ok (renderAll seedBook.records) ∧
    renderAll seedBook.records ≠ renderAll (seedBook.records.take 0) := by
  constructor
  · rfl
  · decide

/-- C5, counterexample: `add birthday jim 2000 9` — only two integers after
the name — parses successfully into an add-birthday command with a
two-element tuple; the parse does not fail with an invalid-arguments
outcome. -/
theorem C5_cex :
    (parse_command "add birthday jim 2000 9").2 = .cmd (.addBirthday "Jim" [2000, 9]) := rfl

/-- C3 (amended): a numeric third token routes to the show operation with
that limit and a positive limit truncates to the first `n` records in
insertion order, but the limit 0 is treated as "no limit" (all records); a
non-integer third token makes the parse fail — the `ValueError` from `int`
is caught by the wrapper and returned as a bare exception value; `show all`
with no third token shows every record. -/
theorem C3_thm (u t : String) (n : Int) (b : AddressBook)
    (h : pyStartsWith u "show all" = true) :
    (pySplit u = ["show", "all", t] → pyParseInt? t = some n →
      parse_command u = ([], .cmd (.showAll (some n)))) ∧
    (pySplit u = ["show", "all", t] → pyParseInt? t = none →
      parse_command u = ([], .excVal ⟨.valueError, intErrMsg t⟩)) ∧
    (pySplit u = ["show", "all"] → parse_command u = ([], .cmd (.showAll none))) ∧
    (0 < n → show_all_contacts (some n) b = .ok (renderAll (b.records.take n.toNat))) ∧
    (show_all_contacts (some 0) b = .ok (renderAll b.records)) ∧
    (show_all_contacts none b = .ok (renderAll b.records)) := by
  obtain ⟨tl, htl⟩ := starts_shape h
  have hh : pyStartsWith u "hello" = false := by
    unfold pyStartsWith
    rw [htl]
    rfl
  have hbody : parse_command_body u = ([], showAllBranch u) := by
    simp [parse_command_body, hh, h]
  refine ⟨?_, ?_, ?_, ?_, rfl, rfl⟩
  · intro hs hn
    have hsb : showAllBranch u = .ok (.showAll (some n)) := by
      unfold showAllBranch
      rw [hs]
      simp [hn]
    unfold parse_command
    rw [hbody, hsb]
  · intro hs hn
    have hsb : showAllBranch u = .error ⟨.valueError, intErrMsg t⟩ := by
      unfold showAllBranch
      rw [hs]
      simp [hn]
    unfold parse_command
    rw [hbody, hsb]
  · intro hs
    have hsb : showAllBranch u = .ok (.showAll none) := by
      unfold showAllBranch
      rw [hs]
      rfl
    unfold parse_command
    rw [hbody, hsb]
  · intro hn
    have h1 : (n != 0) = true := by
      simp only [bne_iff_ne, ne_eq]
      omega
    have h2 : ¬ (n < 0) := by omega
    simp [show_all_contacts, h1, h2]

/-- C3 witness: `show all 2` parses to the show operation with limit 2. -/
theorem C3_w : parse_command "show all 2" = ([], .cmd (.showAll (some 2))) :=
  (C3_thm "show all 2" "2" 2 seedBook rfl).1 rfl rfl

/-- Fallback arm of the `change` branch: fewer than four tokens raise
`IndexError` at `user_data[1..3]`. -/
theorem changeBranch_short {u : String} (hlen : (pySplit u).length < 4) :
    changeBranch u = ([], .error ⟨.indexError, "list index out of range"⟩) := by
  unfold changeBranch
  rcases hs : pySplit u with _ | ⟨a, _ | ⟨b, _ | ⟨c, _ | ⟨d, rest⟩⟩⟩⟩
  · rfl
  · rfl
  · rfl
  · rfl
  · rw [hs] at hlen
    simp at hlen
    omega

/-- C6: a `change` line with fewer than 3 tokens after the keyword yields
the wrong-number-of-parameters message as a returned `(None, message)` value
(no escaping exception); with 3 tokens it routes to the change operation
with the capitalized name, old phone and new phone (printing the leftover
debug line on the way). -/
theorem C6_thm (u : String) (h : pyStartsWith u "change" = true) :
    ((pySplit u).length < 4 →
      parse_command u = ([], .pairNoneStr WRONG_NUMBER_OF_PARAMETERS_ERROR_MESSAGE)) ∧
    (∀ c0 nm po pn rest, pySplit u = c0 :: nm :: po :: pn :: rest →
      parse_command u = ([pyCapitalize nm ++ " " ++ po ++ " " ++ pn],
        .cmd (.change (pyCapitalize nm) po pn))) := by
  obtain ⟨tl, htl⟩ := starts_shape h
  have hh : pyStartsWith u "hello" = false := by
    unfold pyStartsWith
    rw [htl]
    rfl
  have hs2 : pyStartsWith u "show all" = false := by
    unfold pyStartsWith
    rw [htl]
    rfl
  have hp : pyStartsWith u "phone" = false := by
    unfold pyStartsWith
    rw [htl]
    rfl
  have ha : pyStartsWith u "add" = false := by
    unfold pyStartsWith
    rw [htl]
    rfl
  have hbody : parse_command_body u = changeBranch u := by
    simp [parse_command_body, hh, hs2, hp, ha, h]
  constructor
  · intro hlen
    have hcb := changeBranch_short hlen
    unfold parse_command
    rw [hbody, hcb]
  · intro c0 nm po pn rest hs
    have hcb : changeBranch u
        = ([pyCapitalize nm ++ " " ++ po ++ " " ++ pn],
            .ok (.change (pyCapitalize nm) po pn)) := by
      unfold changeBranch
      rw [hs]
    unfold parse_command
    rw [hbody, hcb]

/-- C6 witness: `change bob 111 222` parses to the change operation with
the capitalized name (the debug line is printed by the parser). -/
theorem C6_w : parse_command "change bob 111 222"
    = (["Bob 111 222"], .cmd (.change "Bob" "111" "222")) :=
  (C6_thm "change bob 111 222" rfl).2 "change" "bob" "111" "222" [] rfl


/-- With the phone substring present, the `add` branch is definitionally the
phone sub-parse. -/
theorem addBranch_eq_phone {u : String} (hp : containsStr u "phone" = true) :
    addBranch u
      = match parse_complex_data (replaceAllStr u "add phone" "add") with
        | .error e => .error e
        | .ok (n, p) => .ok (.addPhone n p) := by
  unfold addBranch
  rw [hp]
  rfl

/-- With no phone substring but a birthday substring, the `add` branch is
definitionally the birthday sub-parse. -/
theorem addBranch_eq_bday {u : String} (hp : containsStr u "phone" = false)
    (hb : containsStr u "birthday" = true) :
    addBranch u
      = match parse_birthday (replaceAllStr u "add birthday" "add") with
        | .error e => .error e
        | .ok (n, zs) => .ok (.addBirthday n zs) := by
  unfold addBranch
  rw [hp, hb]
  rfl

/-- With neither substring, the `add` branch is the plain add sub-parse. -/
theorem addBranch_eq_plain {u : String} (hp : containsStr u "phone" = false)
    (hb : containsStr u "birthday" = false) :
    addBranch u
      = match parse_complex_data u with
        | .error e => .error e
        | .ok (n, p) => .ok (.addContact n p) := by
  unfold addBranch
  rw [hp, hb]
  rfl

/-- Any successful parse through the phone sub-branch of `add` yields an
add-phone command. -/
theorem addBranch_phone_shape {u : String} {c : ParsedCmd}
    (hp : containsStr u "phone" = true) (h : addBranch u = .ok c) :
    ∃ nm ph, c = .addPhone nm ph := by
  rw [addBranch_eq_phone hp] at h
  cases hq : parse_complex_data (replaceAllStr u "add phone" "add") with
  | error e => rw [hq] at h; simp at h
  | ok pr =>
    rcases pr with ⟨n2, p2⟩
    rw [hq] at h
    injection h with h2
    exact ⟨n2, p2, h2.symm⟩

/-- Any successful parse through the birthday sub-branch of `add` yields an
add-birthday command. -/
theorem addBranch_bday_shape {u : String} {c : ParsedCmd}
    (hp : containsStr u "phone" = false) (hb : containsStr u "birthday" = true)
    (h : addBranch u = .ok c) :
    ∃ nm zs, c = .addBirthday nm zs := by
  rw [addBranch_eq_bday hp hb] at h
  cases hq : parse_birthday (replaceAllStr u "add birthday" "add") with
  | error e => rw [hq] at h; simp at h
  | ok pr =>
    rcases pr with ⟨n2, zs2⟩
    rw [hq] at h
    injection h with h2
    exact ⟨n2, zs2, h2.symm⟩

/-- Any successful parse through the plain-add sub-branch yields an
add-contact command. -/
theorem addBranch_plain_shape {u : String} {c : ParsedCmd}
    (hp : containsStr u "phone" = false) (hb : containsStr u "birthday" = false)
    (h : addBranch u = .ok c) :
    ∃ nm ph, c = .addContact nm ph := by
  rw [addBranch_eq_plain hp hb] at h
  cases hq : parse_complex_data u with
  | error e => rw [hq] at h; simp at h
  | ok pr =>
    rcases pr with ⟨n2, p2⟩
    rw [hq] at h
    injection h with h2
    exact ⟨n2, p2, h2.symm⟩

/-- If the wrapped parse of `u` produced a command tuple, the undecorated
parse body returned it normally. -/
theorem parse_cmd_inv {u : String} {c : ParsedCmd}
    (h : (parse_command u).2 = .cmd c) : (parse_command_body u).2 = .ok c := by
  unfold parse_command at h
  rcases hb : parse_command_body u with ⟨ls, r⟩
  rw [hb] at h
  cases r with
  | ok c2 =>
    injection h with h2
    rw [h2]
  | error e =>
    rcases e with ⟨k, m⟩
    cases k <;> simp at h

/-- Given the `add` prefix, the whole parse body is the `add` branch. -/
theorem parse_body_add {u : String} (h : pyStartsWith u "add" = true) :
    parse_command_body u = ([], addBranch u) := by
  obtain ⟨tl, htl⟩ := starts_shape h
  have hh : pyStartsWith u "hello" = false := by
    unfold pyStartsWith
    rw [htl]
    rfl
  have hs2 : pyStartsWith u "show all" = false := by
    unfold pyStartsWith
    rw [htl]
    rfl
  have hp : pyStartsWith u "phone" = false := by
    unfold pyStartsWith
    rw [htl]
    rfl
  simp [parse_command_body, hh, hs2, hp, h]

/-- C4: for a line starting with `add`, the parser routes by substring
presence alone — to add-phone whenever `phone` occurs anywhere in the line,
else to add-birthday whenever `birthday` occurs anywhere, else to plain
add-contact — even when those substrings occur inside a name or value
(the hypotheses constrain only the token shape, not where the substrings
occur). Each conjunct also shows no other add-family handler can result. -/
theorem C4_thm (u : String) (h : pyStartsWith u "add" = true) :
    (containsStr u "phone" = true →
      ((∀ a nm ph rest,
          pySplit (replaceAllStr u "add phone" "add") = a :: nm :: ph :: rest →
          (parse_command u).2 = .cmd (.addPhone (pyCapitalize nm) ph)) ∧
       (∀ c, (parse_command u).2 = .cmd c → ∃ nm ph, c = .addPhone nm ph))) ∧
    (containsStr u "phone" = false → containsStr u "birthday" = true →
      ((∀ a nm ts zs,
          pySplit (replaceAllStr u "add birthday" "add") = a :: nm :: ts →
          intsOfTokensE ts = .ok zs →
          (parse_command u).2 = .cmd (.addBirthday (pyCapitalize nm) zs)) ∧
       (∀ c, (parse_command u).2 = .cmd c → ∃ nm zs, c = .addBirthday nm zs))) ∧
    (containsStr u "phone" = false → containsStr u "birthday" = false →
      ((∀ a nm ph rest, pySplit u = a :: nm :: ph :: rest →
          (parse_command u).2 = .cmd (.addContact (pyCapitalize nm) ph)) ∧
       (∀ c, (parse_command u).2 = .cmd c → ∃ nm ph, c = .addContact nm ph))) := by
  have hbody := parse_body_add h
  refine ⟨fun hp => ⟨?_, ?_⟩, fun hp hb => ⟨?_, ?_⟩, fun hp hb => ⟨?_, ?_⟩⟩
  · intro a nm ph rest hs
    have hpc : parse_complex_data (replaceAllStr u "add phone" "add")
        = .ok (pyCapitalize nm, ph) := by
      unfold parse_complex_data
      rw [hs]
    have hab : addBranch u = .ok (.addPhone (pyCapitalize nm) ph) := by
      rw [addBranch_eq_phone hp, hpc]
    unfold parse_command
    rw [hbody, hab]
  · intro c hc
    have h2 := parse_cmd_inv hc
    rw [hbody] at h2
    exact addBranch_phone_shape hp h2
  · intro a nm ts zs hs hi
    have hpb : parse_birthday (replaceAllStr u "add birthday" "add")
        = match intsOfTokensE ts with
          | .error e => .error e
          | .ok zs => .ok (pyCapitalize nm, zs) := by
      unfold parse_birthday
      rw [hs]
    rw [hi] at hpb
    have hab : addBranch u = .ok (.addBirthday (pyCapitalize nm) zs) := by
      rw [addBranch_eq_bday hp hb, hpb]
    unfold parse_command
    rw [hbody, hab]
  · intro c hc
    have h2 := parse_cmd_inv hc
    rw [hbody] at h2
    exact addBranch_bday_shape hp hb h2
  · intro a nm ph rest hs
    have hpc : parse_complex_data u = .ok (pyCapitalize nm, ph) := by
      unfold parse_complex_data
      rw [hs]
    have hab : addBranch u = .ok (.addContact (pyCapitalize nm) ph) := by
      rw [addBranch_eq_plain hp hb, hpc]
    unfold parse_command
    rw [hbody, hab]
  · intro c hc
    have h2 := parse_cmd_inv hc
    rw [hbody] at h2
    exact addBranch_plain_shape hp hb h2

/-- C4 witness: `add myphone 0123456789` — the substring `phone` occurs only
inside the name, yet the line is routed to the add-phone operation. -/
theorem C4_w : (parse_command "add myphone 0123456789").2
    = .cmd (.addPhone "Myphone" "0123456789") :=
  ((C4_thm "add myphone 0123456789" rfl).1 rfl).1 "add" "myphone" "0123456789" [] rfl

/-- C5 (amended): in the `add birthday` branch the tokens after the name
are converted to integers positionally into a tuple of whatever length
remains — the parse succeeds for ANY number of numeric tokens (no
three-integer arity check); it fails only when some token is non-numeric
(the `ValueError` is caught and returned as a bare exception value) or when
the name token itself is missing (`IndexError`, returned as the
wrong-number-of-parameters pair). -/
theorem C5_thm (u nm : String) (ts : List String)
    (h1 : pyStartsWith u "add" = true)
    (h2 : containsStr u "phone" = false)
    (h3 : containsStr u "birthday" = true) :
    (∀ a zs, pySplit (replaceAllStr u "add birthday" "add") = a :: nm :: ts →
      intsOfTokensE ts = .ok zs →
      parse_command u = ([], .cmd (.addBirthday (pyCapitalize nm) zs))) ∧
    (∀ a e, pySplit (replaceAllStr u "add birthday" "add") = a :: nm :: ts →
      intsOfTokensE ts = .error e →
      parse_command u = ([], .excVal e)) ∧
    ((pySplit (replaceAllStr u "add birthday" "add") = [] ∨
        pySplit (replaceAllStr u "add birthday" "add") = [nm]) →
      parse_command u = ([], .pairNoneStr WRONG_NUMBER_OF_PARAMETERS_ERROR_MESSAGE)) := by
  have hbody := parse_body_add h1
  refine ⟨?_, ?_, ?_⟩
  · intro a zs hs hi
    have hpb0 : parse_birthday (replaceAllStr u "add birthday" "add")
        = match intsOfTokensE ts with
          | .error e => .error e
          | .ok zs => .ok (pyCapitalize nm, zs) := by
      unfold parse_birthday
      rw [hs]
    rw [hi] at hpb0
    have hab : addBranch u = .ok (.addBirthday (pyCapitalize nm) zs) := by
      rw [addBranch_eq_bday h2 h3, hpb0]
    unfold parse_command
    rw [hbody, hab]
  · intro a e hs hi
    have hpb0 : parse_birthday (replaceAllStr u "add birthday" "add")
        = match intsOfTokensE ts with
          | .error e => .error e
          | .ok zs => .ok (pyCapitalize nm, zs) := by
      unfold parse_birthday
      rw [hs]
    rw [hi] at hpb0
    have hab : addBranch u = .error e := by
      rw [addBranch_eq_bday h2 h3, hpb0]
    have hk := intsOfTokensE_kind hi
    rcases e with ⟨k, m⟩
    simp only at hk
    subst hk
    unfold parse_command
    rw [hbody, hab]
  · intro hs
    have hpb0 : parse_birthday (replaceAllStr u "add birthday" "add")
        = .error ⟨.indexError, "list index out of range"⟩ := by
      unfold parse_birthday
      rcases hs with hs | hs
      · rw [hs]
      · rw [hs]
    have hab : addBranch u = .error ⟨.indexError, "list index out of range"⟩ := by
      rw [addBranch_eq_bday h2 h3, hpb0]
    unfold parse_command
    rw [hbody, hab]

/-- C5 witness: two integer tokens after the name parse successfully into a
two-element birthday tuple. -/
theorem C5_w : parse_command "add birthday sam 2001 5"
    = ([], .cmd (.addBirthday "Sam" [2001, 5])) :=
  (C5_thm "add birthday sam 2001 5" "sam" ["2001", "5"] rfl rfl rfl).1
    "add" [2001, 5] rfl rfl

/-- C7: looking up a name that is absent from the book prints exactly the
not-found message and leaves the book unchanged — `get_phone` RETURNS a
`TypeError` value rather than raising, so no exception escapes to the loop. -/
theorem C7_thm (b : AddressBook) (u t : String) (rest : List String)
    (h1 : pyStartsWith (pyLower u) "phone" = true)
    (h2 : pySplit (pyLower u) = "phone" :: t :: rest)
    (h3 : AddressBook.find b (pyCapitalize t) = none) :
    processLine b u = .printed [NO_RECORD_ERROR_MESSAGE] b := by
  have hq : QUIT_COMMANDS.contains u = false := by
    cases hqc : QUIT_COMMANDS.contains u
    · rfl
    · exfalso
      simp [QUIT_COMMANDS] at hqc
      rcases hqc with rfl | rfl | rfl <;> exact absurd h1 (by decide)
  obtain ⟨tl, htl⟩ := starts_shape h1
  have hh : pyStartsWith (pyLower u) "hello" = false := by
    unfold pyStartsWith
    rw [htl]
    rfl
  have hs2 : pyStartsWith (pyLower u) "show all" = false := by
    unfold pyStartsWith
    rw [htl]
    rfl
  have hbody : parse_command_body (pyLower u) = ([], phoneBranch (pyLower u)) := by
    simp [parse_command_body, hh, hs2, h1]
  have hpb : phoneBranch (pyLower u) = .ok (.getPhone (pyCapitalize t)) := by
    unfold phoneBranch
    rw [h2]
  have hpc : parse_command (pyLower u) = ([], .cmd (.getPhone (pyCapitalize t))) := by
    unfold parse_command
    rw [hbody, hpb]
  have hgp : get_phone (pyCapitalize t) b
      = (.vExc ⟨.typeError, NO_RECORD_ERROR_MESSAGE⟩, b) := by
    unfold get_phone get_phone_body
    rw [h3]
    rfl
  unfold processLine
  rw [hq]
  simp only [Bool.false_eq_true, if_false, hpc]
  show (match (([], ParseRet.cmd (.getPhone (pyCapitalize t))) : List String × ParseRet).2 with
    | ParseRet.cmd c =>
      match runHandler c b with
      | .ok (v, b2) => StepResult.printed (([] : List String) ++ [pvRender v]) b2
      | .error e => StepResult.crashed e.kind
    | ParseRet.pairNoneStr m => StepResult.printed (([] : List String) ++ [m]) b
    | ParseRet.pairNoneExc e => StepResult.printed (([] : List String) ++ [excStr e]) b
    | ParseRet.excVal _ => StepResult.crashed .typeError)
    = StepResult.printed [NO_RECORD_ERROR_MESSAGE] b
  show (match runHandler (.getPhone (pyCapitalize t)) b with
    | .ok (v, b2) => StepResult.printed (([] : List String) ++ [pvRender v]) b2
    | .error e => StepResult.crashed e.kind)
    = StepResult.printed [NO_RECORD_ERROR_MESSAGE] b
  have hrh : runHandler (.getPhone (pyCapitalize t)) b
      = .ok (get_phone (pyCapitalize t) b) := rfl
  rw [hgp] at hrh
  rw [hrh]
  rfl

/-- C7 witness: `phone nobody` on the empty book prints the not-found
message and the loop-visible state is unchanged. -/
theorem C7_w : processLine ⟨[]⟩ "phone nobody"
    = .printed [NO_RECORD_ERROR_MESSAGE] ⟨[]⟩ :=
  C7_thm ⟨[]⟩ "phone nobody" "nobody" [] rfl rfl rfl

/-- Commands produced by the `show all` branch carry no name. -/
theorem showAllBranch_ok_name {u : String} {c : ParsedCmd}
    (h : showAllBranch u = .ok c) : nameOf c = none := by
  have h2 : (if ((pySplit u).length == 3) = true then
      match pyParseInt? (pySplit u)[2]! with
      | some n => Except.ok (ParsedCmd.showAll (some n))
      | none => Except.error (⟨.valueError, intErrMsg (pySplit u)[2]!⟩ : PyExc)
    else Except.ok (ParsedCmd.showAll none)) = Except.ok c := h
  split at h2
  · cases hp : pyParseInt? (pySplit u)[2]! with
    | some n2 =>
      rw [hp] at h2
      injection h2 with h3
      subst h3
      rfl
    | none =>
      rw [hp] at h2
      simp at h2
  · injection h2 with h3
    subst h3
    rfl

/-- The `phone` branch capitalizes the name token it extracts. -/
theorem phoneBranch_ok_name {u : String} {c : ParsedCmd}
    (h : phoneBranch u = .ok c) : ∃ t, c = .getPhone (pyCapitalize t) := by
  unfold phoneBranch at h
  rcases hs : pySplit u with _ | ⟨a, _ | ⟨t2, rest⟩⟩
  all_goals rw [hs] at h
  · simp at h
  · simp at h
  · injection h with h2
    exact ⟨t2, h2.symm⟩

/-- `parse_complex_data` capitalizes the name component it returns. -/
theorem parse_complex_data_name {s n p : String}
    (h : parse_complex_data s = .ok (n, p)) : ∃ t, n = pyCapitalize t := by
  unfold parse_complex_data at h
  rcases hs : pySplit s with _ | ⟨a, _ | ⟨t2, _ | ⟨p2, rest⟩⟩⟩
  all_goals rw [hs] at h
  · simp at h
  · simp at h
  · simp at h
  · injection h with h2
    have h3 := congrArg Prod.fst h2
    exact ⟨t2, h3.symm⟩

/-- `parse_birthday` capitalizes the name component it returns. -/
theorem parse_birthday_name {s n : String} {zs : List Int}
    (h : parse_birthday s = .ok (n, zs)) : ∃ t, n = pyCapitalize t := by
  unfold parse_birthday at h
  rcases hs : pySplit s with _ | ⟨a, _ | ⟨t2, ts2⟩⟩
  all_goals rw [hs] at h
  · simp at h
  · simp at h
  · have h4 : (match intsOfTokensE ts2 with
        | Except.error e => Except.error e
        | Except.ok zs => Except.ok (pyCapitalize t2, zs)) = Except.ok (n, zs) := h
    cases hi : intsOfTokensE ts2 with
    | error e =>
      rw [hi] at h4
      simp at h4
    | ok zs2 =>
      rw [hi] at h4
      injection h4 with h2
      have h3 := congrArg Prod.fst h2
      exact ⟨t2, h3.symm⟩

/-- The `change` branch capitalizes the name token it extracts. -/
theorem changeBranch_ok_name {u : String} {c : ParsedCmd}
    (h : (changeBranch u).2 = .ok c) : ∃ t po pn, c = .change (pyCapitalize t) po pn := by
  unfold changeBranch at h
  rcases hs : pySplit u with _ | ⟨a, _ | ⟨t2, _ | ⟨po2, _ | ⟨pn2, rest⟩⟩⟩⟩
  all_goals rw [hs] at h
  · simp at h
  · simp at h
  · simp at h
  · simp at h
  · injection h with h2
    exact ⟨t2, po2, pn2, h2.symm⟩

/-- Any named command produced by the `add` branch carries a capitalized
name. -/
theorem addBranch_ok_name {u : String} {c : ParsedCmd} {n : String}
    (h : addBranch u = .ok c) (hn : nameOf c = some n) : ∃ t, n = pyCapitalize t := by
  by_cases hp : containsStr u "phone" = true
  · rw [addBranch_eq_phone hp] at h
    cases hq : parse_complex_data (replaceAllStr u "add phone" "add") with
    | error e => rw [hq] at h; simp at h
    | ok pr =>
      rcases pr with ⟨n2, p2⟩
      rw [hq] at h
      injection h with h2
      subst h2
      obtain ⟨t2, ht2⟩ := parse_complex_data_name hq
      injection hn with hn2
      exact ⟨t2, hn2 ▸ ht2⟩
  · have hp2 : containsStr u "phone" = false := by simpa using hp
    by_cases hb : containsStr u "birthday" = true
    · rw [addBranch_eq_bday hp2 hb] at h
      cases hq : parse_birthday (replaceAllStr u "add birthday" "add") with
      | error e => rw [hq] at h; simp at h
      | ok pr =>
        rcases pr with ⟨n2, zs2⟩
        rw [hq] at h
        injection h with h2
        subst h2
        obtain ⟨t2, ht2⟩ := parse_birthday_name hq
        injection hn with hn2
        exact ⟨t2, hn2 ▸ ht2⟩
    · have hb2 : containsStr u "birthday" = false := by simpa using hb
      rw [addBranch_eq_plain hp2 hb2] at h
      cases hq : parse_complex_data u with
      | error e => rw [hq] at h; simp at h
      | ok pr =>
        rcases pr with ⟨n2, p2⟩
        rw [hq] at h
        injection h with h2
        subst h2
        obtain ⟨t2, ht2⟩ := parse_complex_data_name hq
        injection hn with hn2
        exact ⟨t2, hn2 ▸ ht2⟩

/-- Every named command the parse body produces carries a capitalized name
token. -/
theorem parse_body_name {u : String} {c : ParsedCmd} {n : String}
    (h : (parse_command_body u).2 = .ok c) (hn : nameOf c = some n) :
    ∃ t, n = pyCapitalize t := by
  unfold parse_command_body at h
  split at h
  · injection h with h2
    subst h2
    simp [nameOf] at hn
  · split at h
    · have h2 : showAllBranch u = .ok c := h
      rw [showAllBranch_ok_name h2] at hn
      simp at hn
    · split at h
      · have h2 : phoneBranch u = .ok c := h
        obtain ⟨t2, rfl⟩ := phoneBranch_ok_name h2
        injection hn with hn2
        exact ⟨t2, hn2.symm⟩
      · split at h
        · have h2 : addBranch u = .ok c := h
          exact addBranch_ok_name h2 hn
        · split at h
          · obtain ⟨t2, po2, pn2, rfl⟩ := changeBranch_ok_name h
            injection hn with hn2
            exact ⟨t2, hn2.symm⟩
          · simp at h

/-- C8: every parsed command that carries a name carries it in capitalized
form: the name is a `pyCapitalize` fixed point, and any other spelling of
the name that agrees with it up to letter case capitalizes to the very same
string — so case variants address the same record key. -/
theorem C8_thm (u : String) (c : ParsedCmd) (n : String)
    (h1 : (parse_command u).2 = .cmd c) (h2 : nameOf c = some n) :
    pyCapitalize n = n ∧ ∀ m : String, pyLower m = pyLower n → pyCapitalize m = n := by
  obtain ⟨t, ht⟩ := parse_body_name (parse_cmd_inv h1) h2
  subst ht
  exact ⟨cap_of_cap t, fun m hm => cap_eq_of_lower_eq m t hm⟩

/-- C8 witness: the name handed to the lookup handler for `phone walter` is
`Walter`, a capitalization fixed point. -/
theorem C8_w : pyCapitalize "Walter" = "Walter" :=
  (C8_thm "phone walter" (.getPhone "Walter") "Walter" rfl rfl).1
